import Mathlib

/-!
Verification development for the `essent_dynamic` integration.

The Python sources embedded here are:
  * `custom_components/essent_dynamic/coordinator.py` — the fetch/parse
    pipeline `_async_update_data`, producing `EssentDayData` or `None`;
  * `custom_components/essent_dynamic/sensor.py` — the query helpers
    `_find_next_tariff` and `_find_tariff_for_moment` and the sensor
    `native_value` properties.

Modelling conventions:
  * A decoded JSON value is the inductive `JsonValue`.  JSON numbers are
    modelled as rationals (Python floats are treated as exact values; no
    claim below depends on rounding).  Python `bool` is a subclass of
    `int`, so every `isinstance(x, (int, float))` test in the source also
    accepts booleans; `isNumeric` reproduces that.
  * Python `dict.get(k)` returns `None` both when the key is absent and
    when the stored JSON value was `null`; `jgetD` collapses the two to
    `JsonValue.null`, exactly matching what the source can observe, since
    the source only ever reads JSON objects through `.get`.
  * A Python `datetime` is `PyDatetime`: the wall-clock value in minutes
    since day 0 of the proleptic Gregorian calendar (the sources in the
    claims use whole-minute timestamps) together with an optional UTC
    offset in minutes (`none` = zone-naive).  Comparing a naive and an
    aware datetime raises `TypeError` in Python; `pyLt`/`pyLe` return
    `none` for that case.
  * `datetime.fromisoformat` / `date.fromisoformat` are modelled for the
    `YYYY-MM-DD`/`YYYY-MM-DDTHH:MM` shapes with an optional `+HH:MM` or
    `-HH:MM` offset suffix, with full calendar validation (month lengths,
    leap years, year 1..9999) as CPython performs; longer forms with
    seconds are outside the modelled subset and count as parse failures.
  * Python `list.sort(key=...)` on datetime keys raises `TypeError` as
    soon as the list mixes zone-naive and zone-aware keys (any comparison
    between the two kinds raises); on a uniformly naive or uniformly
    aware list it sorts stably by the wall-clock (resp. UTC) value, which
    is `sortKey` below.  The model uses a stable insertion sort; any two
    stable sorts by the same total preorder produce the same list.
-/

/-- A decoded JSON value, as produced by `json.loads`.  Decoded objects
have pairwise distinct keys (on duplicate keys in the source text the
decoder keeps the last one), so lookups below may use the first matching
key of the association list. -/
inductive JsonValue where
  | null
  | bool (b : Bool)
  | num (q : ℚ)
  | str (s : String)
  | arr (l : List JsonValue)
  | obj (l : List (String × JsonValue))

/-- Whether the value is a Python `dict` (`isinstance(x, dict)`). -/
def JsonValue.isObj : JsonValue → Bool
  | .obj _ => true
  | _ => false

/-- Python `x is None` on a decoded JSON value read through `.get`. -/
def isNull : JsonValue → Bool
  | .null => true
  | _ => false

/-- Association-list lookup inside an object. -/
def jlookup : List (String × JsonValue) → String → Option JsonValue
  | [], _ => none
  | (k, v) :: rest, key => if k = key then some v else jlookup rest key

/-- Python `x.get(k)` on a decoded JSON value: `None` when `x` is not a
dict, when the key is absent, or when the stored value is JSON `null` —
all collapsed to `JsonValue.null`, which is what the source observes. -/
def jgetD (v : JsonValue) (k : String) : JsonValue :=
  match v with
  | .obj l => (jlookup l k).getD .null
  | _ => .null

/-- Python `isinstance(x, (int, float))` on a decoded JSON value.  Note
that Python `bool` is a subclass of `int`, so JSON `true`/`false` pass
this test. -/
def isNumeric : JsonValue → Bool
  | .num _ => true
  | .bool _ => true
  | _ => false

/-- The numeric value of a JSON number, with `float(True) = 1.0` and
`float(False) = 0.0` for the boolean corner; `0` on non-numeric input
(never reached by the pipeline after an `isNumeric` test). -/
def toRat : JsonValue → ℚ
  | .num q => q
  | .bool b => if b then 1 else 0
  | _ => 0

/-- A Python `datetime`: wall-clock minutes since 0001-03-01-based epoch
used by the civil-day conversion below, plus an optional UTC offset in
minutes (`none` = zone-naive). -/
structure PyDatetime where
  naiveMinutes : Int
  tz : Option Int
deriving DecidableEq, Repr

/-- Python `datetime.__lt__`: naive with naive compares wall-clock
values, aware with aware compares UTC-adjusted values, and a mixed pair
raises `TypeError` (modelled as `none`). -/
def pyLt (a b : PyDatetime) : Option Bool :=
  match a.tz, b.tz with
  | none, none => some (decide (a.naiveMinutes < b.naiveMinutes))
  | some x, some y => some (decide (a.naiveMinutes - x < b.naiveMinutes - y))
  | _, _ => none

/-- Python `datetime.__le__`, with the same mixed-awareness `TypeError`. -/
def pyLe (a b : PyDatetime) : Option Bool :=
  match a.tz, b.tz with
  | none, none => some (decide (a.naiveMinutes ≤ b.naiveMinutes))
  | some x, some y => some (decide (a.naiveMinutes - x ≤ b.naiveMinutes - y))
  | _, _ => none

/-- The value Python's comparison uses once both sides have the same
zone-awareness: the wall-clock value for naive datetimes, the
UTC-adjusted value for aware ones. -/
def sortKey (d : PyDatetime) : Int :=
  d.naiveMinutes - (d.tz.getD 0)

/-- Python `datetime.date()` as a day ordinal: the tz-ignoring calendar
date of the wall-clock value. -/
def dateOf (d : PyDatetime) : Int :=
  Int.fdiv d.naiveMinutes 1440

/-- Days since 1970-01-01 of the civil date `(y, m, d)` (Howard
Hinnant's `days_from_civil`, proleptic Gregorian). -/
def daysFromCivil (y m d : Int) : Int :=
  let y2 := if m ≤ 2 then y - 1 else y
  let era := Int.fdiv y2 400
  let yoe := y2 - era * 400
  let mp := (m + 9) % 12
  let doy := Int.fdiv (153 * mp + 2) 5 + d - 1
  let doe := yoe * 365 + Int.fdiv yoe 4 - Int.fdiv yoe 100 + doy
  era * 146097 + doe - 719468

/-- Inverse of `daysFromCivil` (Hinnant's `civil_from_days`). -/
def civilFromDays (z0 : Int) : Int × Int × Int :=
  let z := z0 + 719468
  let era := Int.fdiv z 146097
  let doe := z - era * 146097
  let yoe :=
    Int.fdiv (doe - Int.fdiv doe 1460 + Int.fdiv doe 36524 - Int.fdiv doe 146096) 365
  let y := yoe + era * 400
  let doy := doe - (365 * yoe + Int.fdiv yoe 4 - Int.fdiv yoe 100)
  let mp := Int.fdiv (5 * doy + 2) 153
  let d := doy - Int.fdiv (153 * mp + 2) 5 + 1
  let m := mp + (if mp < 3 then 3 else -9)
  (y + (if m ≤ 2 then 1 else 0), m, d)

/-- Gregorian leap year. -/
def isLeapYear (y : Int) : Bool :=
  (y % 4 == 0 && y % 100 != 0) || (y % 400 == 0)

/-- Number of days in the given month. -/
def daysInMonth (y m : Int) : Int :=
  if m = 2 then (if isLeapYear y then 29 else 28)
  else if m = 4 ∨ m = 6 ∨ m = 9 ∨ m = 11 then 30
  else 31

/-- Validity of a civil date per CPython's `datetime.date` (year range
1..9999, real month lengths). -/
def validDate (y m d : Int) : Bool :=
  decide (1 ≤ y ∧ y ≤ 9999 ∧ 1 ≤ m ∧ m ≤ 12 ∧ 1 ≤ d ∧ d ≤ daysInMonth y m)

/-- Numeric value of an ASCII digit. -/
def digit? (c : Char) : Option Int :=
  if c.isDigit then some ((c.toNat : Int) - 48) else none

/-- Two-digit field. -/
def dd? (c1 c2 : Char) : Option Int := do
  let a ← digit? c1
  let b ← digit? c2
  pure (10 * a + b)

/-- Four-digit field. -/
def d4? (c1 c2 c3 c4 : Char) : Option Int := do
  let a ← digit? c1
  let b ← digit? c2
  let c ← digit? c3
  let d ← digit? c4
  pure (1000 * a + 100 * b + 10 * c + d)

/-- `date.fromisoformat`: accepts exactly `YYYY-MM-DD` naming a valid
calendar date, returning its day ordinal; `none` models `ValueError`. -/
def fromisoformatDate (s : String) : Option Int :=
  match s.toList with
  | [y1, y2, y3, y4, '-', m1, m2, '-', e1, e2] => do
    let y ← d4? y1 y2 y3 y4
    let m ← dd? m1 m2
    let d ← dd? e1 e2
    if validDate y m d then pure (daysFromCivil y m d) else none
  | _ => none

/-- `datetime.fromisoformat` on the modelled subset:
`YYYY-MM-DDTHH:MM` with an optional `+HH:MM`/`-HH:MM` suffix (offsets
strictly below 24 hours, as CPython requires).  `none` models
`ValueError`. -/
def fromisoformatDT (s : String) : Option PyDatetime :=
  match s.toList with
  | [y1, y2, y3, y4, '-', m1, m2, '-', e1, e2, 'T', h1, h2, ':', n1, n2] => do
    let y ← d4? y1 y2 y3 y4
    let m ← dd? m1 m2
    let d ← dd? e1 e2
    let h ← dd? h1 h2
    let mi ← dd? n1 n2
    if validDate y m d ∧ h ≤ 23 ∧ mi ≤ 59 then
      pure ⟨daysFromCivil y m d * 1440 + h * 60 + mi, none⟩
    else none
  | [y1, y2, y3, y4, '-', m1, m2, '-', e1, e2, 'T',
     h1, h2, ':', n1, n2, sg, o1, o2, ':', p1, p2] => do
    let y ← d4? y1 y2 y3 y4
    let m ← dd? m1 m2
    let d ← dd? e1 e2
    let h ← dd? h1 h2
    let mi ← dd? n1 n2
    let oh ← dd? o1 o2
    let om ← dd? p1 p2
    let sign ← if sg = '+' then some (1 : Int)
               else if sg = '-' then some (-1 : Int) else none
    if validDate y m d ∧ h ≤ 23 ∧ mi ≤ 59 ∧ oh ≤ 23 ∧ om ≤ 59 then
      pure ⟨daysFromCivil y m d * 1440 + h * 60 + mi, some (sign * (oh * 60 + om))⟩
    else none
  | _ => none

/-- Zero-padding to two digits. -/
def pad2 (n : Int) : String :=
  let s := toString n.toNat
  if s.length < 2 then "0" ++ s else s

/-- Zero-padding to four digits. -/
def pad4 (n : Int) : String :=
  let s := toString n.toNat
  String.mk (List.replicate (4 - s.length) '0') ++ s

/-- `date.isoformat()` of a day ordinal: `YYYY-MM-DD`. -/
def isoformatDate (n : Int) : String :=
  let c := civilFromDays n
  pad4 c.1 ++ "-" ++ pad2 c.2.1 ++ "-" ++ pad2 c.2.2

example : isoformatDate (daysFromCivil 2024 1 2) = "2024-01-02" := by decide

example : fromisoformatDate "2024-02-29" = some (daysFromCivil 2024 2 29) := by decide

example : fromisoformatDate "2023-02-29" = none := by decide

example : fromisoformatDT "2024-01-01T02:00" =
    some ⟨daysFromCivil 2024 1 1 * 1440 + 120, none⟩ := by decide

example : fromisoformatDT "2024-01-01T01:00+00:00" =
    some ⟨daysFromCivil 2024 1 1 * 1440 + 60, some 0⟩ := by decide

/-- One parsed priced interval, `ParsedTariff` in `coordinator.py`
(`end` is a Lean keyword, hence the field name `end_`). -/
structure ParsedTariff where
  start : PyDatetime
  end_ : PyDatetime
  total : ℚ
  market : Option ℚ
  fee : Option ℚ
  tax : Option ℚ
deriving DecidableEq, Repr

/-- One day's validated data, `EssentDayData` in `coordinator.py`; the
`day` field is a day ordinal. -/
structure EssentDayData where
  day : Int
  vat_percentage : Option ℚ
  unit_of_measurement : Option String
  tariffs : List ParsedTariff
deriving DecidableEq, Repr

/-- Outcome of one `_async_update_data` run on an already-decoded JSON
payload: a parsed day (`return EssentDayData(...)`), no data
(`return None`), or an exception escaping the method. -/
inductive ParseResult where
  | ok (d : EssentDayData)
  | noData
  | raised
deriving DecidableEq, Repr

/-- Lines 65-68 of `coordinator.py`: `payload.get("prices")` guarded by
`isinstance(payload, dict)`, then requiring a non-empty list. -/
def pricesOf (payload : JsonValue) : Option (List JsonValue) :=
  match jgetD payload "prices" with
  | .arr [] => none
  | .arr (x :: xs) => some (x :: xs)
  | _ => none

/-- The day-selection match test of lines 73-78: the entry is a dict and
its `"date"` value equals `today.isoformat()` (a non-string `"date"`,
including an absent one, never equals a Python `str`). -/
def matchesToday (e : JsonValue) (today : Int) : Bool :=
  e.isObj &&
    (match jgetD e "date" with
     | .str s => s == isoformatDate today
     | _ => false)

/-- Lines 70-85 of `coordinator.py`: first entry matching today's ISO
date, else the first entry of the list provided it is a dict, else no
data. -/
def chooseEntry (prices : List JsonValue) (today : Int) : Option JsonValue :=
  match prices.find? (fun e => matchesToday e today) with
  | some c => some c
  | none =>
    match prices with
    | [] => none
    | first :: _ => if first.isObj then some first else none

/-- Lines 87-92: the set's day is the chosen entry's `"date"` string
parsed as a calendar date, falling back to `today` when the field is not
a string or `date.fromisoformat` raises `ValueError`. -/
def dayOf (chosen : JsonValue) (today : Int) : Int :=
  match jgetD chosen "date" with
  | .str s => (fromisoformatDate s).getD today
  | _ => today

/-- Lines 94-97: the chosen entry must contain an `"electricity"` dict. -/
def electricityOf (chosen : JsonValue) : Option JsonValue :=
  match jgetD chosen "electricity" with
  | .obj l => some (.obj l)
  | _ => none

/-- Line 166: `unit if isinstance(unit, str) else None`. -/
def unitOf (elec : JsonValue) : Option String :=
  match jgetD elec "unitOfMeasurement" with
  | .str s => some s
  | _ => none

/-- Line 165: `vat if isinstance(vat, (int, float)) else None` (kept as
its numeric value). -/
def vatOf (elec : JsonValue) : Option ℚ :=
  let v := jgetD elec "vatPercentage"
  if isNumeric v then some (toRat v) else none

/-- Lines 102-105: `"tariffs"` inside `electricity` must be a non-empty
list. -/
def tariffsRawOf (elec : JsonValue) : Option (List JsonValue) :=
  match jgetD elec "tariffs" with
  | .arr [] => none
  | .arr (x :: xs) => some (x :: xs)
  | _ => none

/-- Lines 132-136: the `by_type` dict built from the `groups` list —
each group that is a dict with a string `"type"` stores its (possibly
absent, hence null) `"amount"` under that type, later groups
overwriting earlier ones.  New entries are prepended so that `jlookup`
(first match) yields the last write. -/
def buildByType (groups : List JsonValue) : List (String × JsonValue) :=
  groups.foldl
    (fun m g =>
      if g.isObj then
        match jgetD g "type" with
        | .str ty => (ty, jgetD g "amount") :: m
        | _ => m
      else m)
    []

/-- Lines 138-140: `by_type.get(label)` filtered through
`isinstance(..., (int, float))`; both an absent label and a non-numeric
amount give `None`. -/
def pickAmount (m : List (String × JsonValue)) (ty : String) : Option ℚ :=
  match jlookup m ty with
  | some v => if isNumeric v then some (toRat v) else none
  | none => none

/-- Lines 129-140: the `(market, fee, tax)` triple extracted from the
entry's `"groups"` value (all `None` when it is not a list). -/
def groupAmounts (groups : JsonValue) : Option ℚ × Option ℚ × Option ℚ :=
  match groups with
  | .arr l =>
    let m := buildByType l
    (pickAmount m "MARKET_PRICE", pickAmount m "PURCHASING_FEE", pickAmount m "TAX")
  | _ => (none, none, none)

/-- Lines 109-155, one iteration of the tariff loop: `none` means the
entry is skipped (`continue`), `some` is the appended `ParsedTariff`.
The checks appear in source order: dict test; string `startDateTime`
and `endDateTime` plus non-null `totalAmount`; `datetime.fromisoformat`
on both; group extraction; numeric `totalAmount`. -/
def parseTariffEntry (t : JsonValue) : Option ParsedTariff :=
  if t.isObj then
    match jgetD t "startDateTime", jgetD t "endDateTime" with
    | .str ss, .str es =>
      if isNull (jgetD t "totalAmount") then none
      else
        match fromisoformatDT ss, fromisoformatDT es with
        | some st, some en =>
          let a := groupAmounts (jgetD t "groups")
          if isNumeric (jgetD t "totalAmount") then
            some ⟨st, en, toRat (jgetD t "totalAmount"), a.1, a.2.1, a.2.2⟩
          else none
        | _, _ => none
    | _, _ => none
  else none

/-- Whether a list of tariffs has uniformly zone-naive or uniformly
zone-aware start timestamps.  Python's sort by `x.start` raises
`TypeError` exactly when the keys mix the two kinds (every mixed
comparison raises, and a comparison sort of a mixed list must compare a
mixed pair). -/
def uniformAware (l : List ParsedTariff) : Bool :=
  match l with
  | [] => true
  | t :: rest =>
    match t.start.tz with
    | none => rest.all (fun u => u.start.tz.isNone)
    | some _ => rest.all (fun u => u.start.tz.isSome)

/-- The sort order of line 161 (and of `sorted(...)` in `sensor.py`):
comparison value of the start timestamp. -/
def tariffLe (a b : ParsedTariff) : Prop :=
  sortKey a.start ≤ sortKey b.start

instance : DecidableRel tariffLe :=
  fun a b => inferInstanceAs (Decidable (sortKey a.start ≤ sortKey b.start))

/-- Line 161, `parsed_tariffs.sort(key=lambda x: x.start)` on a list of
uniform zone-awareness: stable sort by the comparison value of the
start timestamp (Python's sort is stable, and any two stable sorts by
the same total preorder agree, so a stable insertion sort models it
exactly). -/
def sortTariffs (l : List ParsedTariff) : List ParsedTariff :=
  List.insertionSort tariffLe l

/-- Lines 65-85 composed: the chosen prices entry, if any. -/
def chosenOf (payload : JsonValue) (today : Int) : Option JsonValue :=
  (pricesOf payload).bind (fun prices => chooseEntry prices today)

/-- The chosen entry's electricity object, if any. -/
def elecOf (payload : JsonValue) (today : Int) : Option JsonValue :=
  (chosenOf payload today).bind electricityOf

/-- The raw (unvalidated) tariffs list of the payload, if reached. -/
def rawOfPayload (payload : JsonValue) (today : Int) : Option (List JsonValue) :=
  (elecOf payload today).bind tariffsRawOf

/-- The tariffs surviving per-entry validation, if the structural stages
passed. -/
def survivorsOf (payload : JsonValue) (today : Int) : Option (List ParsedTariff) :=
  (rawOfPayload payload today).map (fun raw => raw.filterMap parseTariffEntry)

/-- Lines 157-168 of `coordinator.py`: no surviving tariff means no
data; the sort of line 161 raises `TypeError` when the survivors mix
zone-naive and zone-aware starts; otherwise the sorted `EssentDayData`
is assembled. -/
def assembleParsed (chosen elec : JsonValue) (today : Int)
    (survivors : List ParsedTariff) : ParseResult :=
  if survivors = [] then .noData
  else if uniformAware survivors then
    .ok ⟨dayOf chosen today, vatOf elec, unitOf elec, sortTariffs survivors⟩
  else .raised

/-- Lines 50-168 of `coordinator.py` on an already-decoded JSON payload
(`today` is `dt_util.now().date()` as a day ordinal): structural
failures return `None` (`noData`); per-entry failures skip the entry;
the final sort raises `TypeError` when the surviving tariffs mix
zone-naive and zone-aware starts; otherwise the sorted `EssentDayData`
is returned. -/
def parsePayload (payload : JsonValue) (today : Int) : ParseResult :=
  match chosenOf payload today with
  | none => .noData
  | some chosen =>
    match electricityOf chosen with
    | none => .noData
    | some elec =>
      match tariffsRawOf elec with
      | none => .noData
      | some raw => assembleParsed chosen elec today (raw.filterMap parseTariffEntry)

/-- Modelled from Home Assistant's `DataUpdateCoordinator` (the host of
`_async_update_data`, outside this repository): when the update method
returns without raising, the returned value — including `None` — is
stored as the new shared `coordinator.data`; the previous value is kept
only when the update method raises. -/
def coordinatorRefresh (previous : Option EssentDayData) (result : ParseResult) :
    Option EssentDayData :=
  match result with
  | .ok d => some d
  | .noData => none
  | .raised => previous

/-- Outcome of a query helper in `sensor.py`: a tariff, `None`, or an
exception escaping the helper. -/
inductive TariffResult where
  | found (t : ParsedTariff)
  | noMatch
  | raised
deriving DecidableEq, Repr

/-- Lines 64-70 of `sensor.py`: if the (sorted) sequence's first start
is zone-naive, strip any zone from `now` (`now.replace(tzinfo=None)`);
otherwise keep an aware `now`, and attach the first start's zone to a
naive one (`now.replace(tzinfo=reference_tzinfo)` keeps the wall-clock
value). -/
def normalizeNow (refTz : Option Int) (now : PyDatetime) : PyDatetime :=
  match refTz with
  | none => { now with tz := none }
  | some z =>
    match now.tz with
    | some _ => now
    | none => { now with tz := some z }

/-- Lines 54-84 of `sensor.py`, `_find_next_tariff`: empty set gives
`None`; `sorted(data.tariffs, key=lambda t: t.start)` raises on mixed
zone-awareness; then the first sorted tariff starting strictly after
the normalized `now`, else the first sorted tariff whose calendar date
is strictly after `now`'s, else the last sorted tariff.  After
normalization against the sorted head, every comparison in the loops is
between same-awareness datetimes, so it is the `sortKey` comparison
(see `pyLt_same_awareness` below).  The source's local bindings
`now_cmp` and `today` are inlined (they are pure). -/
def findNextTariff (data : EssentDayData) (now : PyDatetime) : TariffResult :=
  match data.tariffs with
  | [] => .noMatch
  | _ :: _ =>
    if uniformAware data.tariffs then
      match sortTariffs data.tariffs with
      | [] => .noMatch
      | first :: restS =>
        match (first :: restS).find?
            (fun t => decide (sortKey (normalizeNow first.start.tz now) < sortKey t.start)) with
        | some t => .found t
        | none =>
          match (first :: restS).find?
              (fun t => decide (dateOf (normalizeNow first.start.tz now) < dateOf t.start)) with
          | some t => .found t
          | none => .found ((first :: restS).getLast (List.cons_ne_nil first restS))
    else .raised

/-- Lines 90-93 of `sensor.py`, the scan of `_find_tariff_for_moment`:
Python's chained `t.start <= moment < t.end` evaluates
`t.start <= moment` first (raising on mixed awareness) and compares
`moment < t.end` only when the first comparison was true. -/
def scanMoment : List ParsedTariff → PyDatetime → TariffResult
  | [], _ => .noMatch
  | t :: rest, m =>
    match pyLe t.start m with
    | none => .raised
    | some false => scanMoment rest m
    | some true =>
      match pyLt m t.end_ with
      | none => .raised
      | some false => scanMoment rest m
      | some true => .found t

/-- Lines 87-93 of `sensor.py`, `_find_tariff_for_moment`: linear scan
of `data.tariffs` in stored order, no sorting, no normalization, no
fallback. -/
def findTariffForMoment (data : EssentDayData) (moment : PyDatetime) : TariffResult :=
  scanMoment data.tariffs moment

/-- Whether a tariff contains the moment per the half-open containment
`start <= moment < end` of line 91 (false also covers the undefined
mixed-awareness comparisons, which the claims exclude by hypothesis). -/
def containsMoment (t : ParsedTariff) (m : PyDatetime) : Bool :=
  match pyLe t.start m, pyLt m t.end_ with
  | some a, some b => a && b
  | _, _ => false

/-- Lines 116-124 of `sensor.py`, `EssentNowPriceSensor.native_value`
with the coordinator data and the zone-aware local time
`dt_util.as_local(dt_util.now())` as explicit inputs: `.error ()` is an
exception escaping the property. -/
def nowPriceNativeValue (data : Option EssentDayData) (localNow : PyDatetime) :
    Except Unit (Option ℚ) :=
  match data with
  | none => .ok none
  | some d =>
    match findTariffForMoment d localNow with
    | .found t => .ok (some t.total)
    | .noMatch => .ok none
    | .raised => .error ()

/-- Same zone-awareness kind (both naive or both aware), the condition
under which Python datetime comparison is defined. -/
def awMatch (a b : PyDatetime) : Bool :=
  a.tz.isSome == b.tz.isSome

/-- The moment `_find_next_tariff` actually compares against: `now`
normalized to the zone-awareness of the sorted sequence's head. -/
def normalizedMoment (d : EssentDayData) (now : PyDatetime) : PyDatetime :=
  match sortTariffs d.tariffs with
  | [] => now
  | first :: _ => normalizeNow first.start.tz now

/-- Day ordinal of 2024-01-01, used by the concrete instances below. -/
def day20240101 : Int := daysFromCivil 2024 1 1

/-- A `MARKET_PRICE` group with amount 7 (concrete instances feeding
the witnesses below). -/
def groupM7 : JsonValue :=
  .obj [("type", .str "MARKET_PRICE"), ("amount", .num 7)]

/-- Second group with the same type, overwriting the first. -/
def groupM9 : JsonValue :=
  .obj [("type", .str "MARKET_PRICE"), ("amount", .num 9)]

/-- A `TAX` group with a non-numeric amount. -/
def groupTaxBad : JsonValue :=
  .obj [("type", .str "TAX"), ("amount", .str "oops")]

/-- A valid tariff entry `[01:00, 02:00)` with a duplicated
`MARKET_PRICE` group and a non-numeric `TAX` group. -/
def entryB : JsonValue :=
  .obj [("startDateTime", .str "2024-01-01T01:00"),
        ("endDateTime", .str "2024-01-01T02:00"),
        ("totalAmount", .num 31),
        ("groups", .arr [groupM7, groupM9, groupTaxBad])]

/-- A valid tariff entry `[00:00, 01:00)` without groups. -/
def entryA : JsonValue :=
  .obj [("startDateTime", .str "2024-01-01T00:00"),
        ("endDateTime", .str "2024-01-01T01:00"),
        ("totalAmount", .num 22)]

/-- A malformed tariff entry: `totalAmount` missing. -/
def entryBad : JsonValue :=
  .obj [("startDateTime", .str "2024-01-01T03:00"),
        ("endDateTime", .str "2024-01-01T04:00")]

/-- The electricity object of the good payload (tariff entries listed
out of order, with one malformed entry). -/
def goodElec : JsonValue :=
  .obj [("unitOfMeasurement", .str "EUR/kWh"),
        ("vatPercentage", .num 21),
        ("tariffs", .arr [entryB, entryA, entryBad])]

/-- The single prices entry of the good payload. -/
def goodPrices0 : JsonValue :=
  .obj [("date", .str "2024-01-01"), ("electricity", goodElec)]

/-- A well-formed payload: one prices entry for 2024-01-01 with two
valid tariffs (listed out of order) and one entry missing
`totalAmount`. -/
def goodPayload : JsonValue := .obj [("prices", .arr [goodPrices0])]

/-- The good electricity object with the malformed entry removed. -/
def prunedElec : JsonValue :=
  .obj [("unitOfMeasurement", .str "EUR/kWh"),
        ("vatPercentage", .num 21),
        ("tariffs", .arr [entryB, entryA])]

/-- The good prices entry with the malformed tariff entry removed. -/
def prunedPrices0 : JsonValue :=
  .obj [("date", .str "2024-01-01"), ("electricity", prunedElec)]

def prunedPayload : JsonValue := .obj [("prices", .arr [prunedPrices0])]

/-- The naive tariff `[00:00, 01:00)` at total `22` the good payload
parses to. -/
def tariffA : ParsedTariff :=
  ⟨⟨day20240101 * 1440, none⟩, ⟨day20240101 * 1440 + 60, none⟩,
   22, none, none, none⟩

/-- The naive tariff `[01:00, 02:00)` at total `31`, market `9`
(the second `MARKET_PRICE` group wins), tax dropped as non-numeric. -/
def tariffB : ParsedTariff :=
  ⟨⟨day20240101 * 1440 + 60, none⟩, ⟨day20240101 * 1440 + 120, none⟩,
   31, some 9, none, none⟩

/-- The day data the good payload parses to. -/
def goodDay : EssentDayData :=
  ⟨day20240101, some 21, some "EUR/kWh", [tariffA, tariffB]⟩

example : parsePayload goodPayload day20240101 = .ok goodDay := by decide

/-- A payload whose single tariff has `start` after `end`; the parser
accepts it unchanged. -/
def invertedPayload : JsonValue :=
  .obj [("prices", .arr [
    .obj [("date", .str "2024-01-01"),
          ("electricity", .obj [
            ("tariffs", .arr [
              .obj [("startDateTime", .str "2024-01-01T02:00"),
                    ("endDateTime", .str "2024-01-01T01:00"),
                    ("totalAmount", .num 5)]])])]])]

/-- A payload whose two valid tariffs mix a zone-naive and a zone-aware
start, making `parsed_tariffs.sort` raise `TypeError`. -/
def mixedPayload : JsonValue :=
  .obj [("prices", .arr [
    .obj [("date", .str "2024-01-01"),
          ("electricity", .obj [
            ("tariffs", .arr [
              .obj [("startDateTime", .str "2024-01-01T00:00"),
                    ("endDateTime", .str "2024-01-01T01:00"),
                    ("totalAmount", .num 1)],
              .obj [("startDateTime", .str "2024-01-01T01:00+00:00"),
                    ("endDateTime", .str "2024-01-01T02:00+00:00"),
                    ("totalAmount", .num 2)]])])]])]

example : parsePayload mixedPayload day20240101 = .raised := by decide

example : parsePayload (.obj []) 0 = .noData := by decide

instance : IsTotal ParsedTariff tariffLe :=
  ⟨fun a b => Int.le_total (sortKey a.start) (sortKey b.start)⟩

instance : IsTrans ParsedTariff tariffLe :=
  ⟨fun _ _ _ h1 h2 => le_trans h1 h2⟩

lemma sortTariffs_perm (l : List ParsedTariff) : List.Perm (sortTariffs l) l :=
  List.perm_insertionSort tariffLe l

lemma sortTariffs_sorted (l : List ParsedTariff) :
    List.Sorted tariffLe (sortTariffs l) :=
  List.sorted_insertionSort tariffLe l

lemma mem_sortTariffs {l : List ParsedTariff} {t : ParsedTariff} :
    t ∈ sortTariffs l ↔ t ∈ l :=
  (sortTariffs_perm l).mem_iff

lemma find?_decomp {α : Type} {p : α → Bool} :
    ∀ {l : List α} {t : α}, l.find? p = some t →
      p t = true ∧ ∃ l₁ l₂, l = l₁ ++ t :: l₂ ∧ ∀ u ∈ l₁, p u = false
  | [], t, h => by simp at h
  | a :: l, t, h => by
    by_cases hp : p a
    · rw [List.find?_cons_of_pos _ hp] at h
      obtain rfl : a = t := by injection h
      exact ⟨hp, [], l, rfl, by simp⟩
    · rw [List.find?_cons_of_neg _ hp] at h
      obtain ⟨hpt, l₁, l₂, rfl, hall⟩ := find?_decomp h
      refine ⟨hpt, a :: l₁, l₂, rfl, ?_⟩
      intro u hu
      rcases List.mem_cons.mp hu with rfl | hu2
      · exact Bool.eq_false_iff.mpr hp
      · exact hall u hu2

lemma find?_append_first {α : Type} {p : α → Bool} :
    ∀ (l₁ : List α) {c : α} (l₂ : List α), p c = true → (∀ u ∈ l₁, p u = false) →
      (l₁ ++ c :: l₂).find? p = some c
  | [], c, l₂, hc, _ => by simp [List.find?_cons_of_pos _ hc]
  | a :: l₁, c, l₂, hc, hall => by
    have ha : p a = false := hall a (by simp)
    rw [List.cons_append, List.find?_cons_of_neg _ (by simp [ha])]
    exact find?_append_first l₁ l₂ hc (fun u hu => hall u (by simp [hu]))

lemma sorted_find?_min {α : Type} {R : α → α → Prop} (hrefl : ∀ a, R a a)
    {p : α → Bool} {l : List α} {t : α}
    (hs : l.Pairwise R) (hf : l.find? p = some t) :
    ∀ u ∈ l, p u = true → R t u := by
  obtain ⟨hpt, l₁, l₂, rfl, hfail⟩ := find?_decomp hf
  intro u hu hpu
  rcases List.mem_append.mp hu with h1 | h2
  · rw [hfail u h1] at hpu; exact absurd hpu (by simp)
  · rcases List.mem_cons.mp h2 with rfl | h3
    · exact hrefl u
    · have hmid := (List.pairwise_append.mp hs).2.1
      exact (List.pairwise_cons.mp hmid).1 u h3

lemma pairwise_rel_getLast {α : Type} {R : α → α → Prop} :
    ∀ {l : List α} (hne : l ≠ []) (_ : l.Pairwise R) (_ : ∀ a, R a a),
      ∀ u ∈ l, R u (l.getLast hne)
  | [], hne, _, _ => absurd rfl hne
  | [a], _, _, hrefl => by
    intro u hu
    rcases List.mem_singleton.mp hu with rfl
    simp [List.getLast]
    exact hrefl u
  | a :: b :: l, hne, hp, hrefl => by
    intro u hu
    have hlast : (a :: b :: l).getLast hne = (b :: l).getLast (by simp) :=
      List.getLast_cons (by simp)
    rcases List.mem_cons.mp hu with rfl | hu2
    · rw [hlast]
      exact (List.pairwise_cons.mp hp).1 _ (List.getLast_mem (by simp))
    · rw [hlast]
      exact pairwise_rel_getLast (by simp) (List.pairwise_cons.mp hp).2 hrefl u hu2

lemma pyLt_same_awareness {a b : PyDatetime} (h : awMatch a b = true) :
    pyLt a b = some (decide (sortKey a < sortKey b)) := by
  unfold awMatch at h
  cases ha : a.tz <;> cases hb : b.tz <;>
    simp [ha, hb, pyLt, sortKey, Option.getD] at h ⊢

lemma pyLe_same_awareness {a b : PyDatetime} (h : awMatch a b = true) :
    pyLe a b = some (decide (sortKey a ≤ sortKey b)) := by
  unfold awMatch at h
  cases ha : a.tz <;> cases hb : b.tz <;>
    simp [ha, hb, pyLe, sortKey, Option.getD] at h ⊢

lemma parse_ok_inversion {p : JsonValue} {today : Int} {d : EssentDayData}
    (h : parsePayload p today = .ok d) :
    ∃ chosen elec raw,
      chosenOf p today = some chosen ∧
      electricityOf chosen = some elec ∧
      tariffsRawOf elec = some raw ∧
      raw.filterMap parseTariffEntry ≠ [] ∧
      uniformAware (raw.filterMap parseTariffEntry) = true ∧
      d = ⟨dayOf chosen today, vatOf elec, unitOf elec,
           sortTariffs (raw.filterMap parseTariffEntry)⟩ := by
  unfold parsePayload at h
  split at h
  · simp at h
  next chosen hc =>
    split at h
    · simp at h
    next elec he =>
      split at h
      · simp at h
      next raw hr =>
        unfold assembleParsed at h
        split at h
        · simp at h
        next h1 =>
          split at h
          next h2 =>
            injection h with h3
            exact ⟨chosen, elec, raw, hc, he, hr, h1, h2, h3.symm⟩
          next h2 => simp at h

lemma rawOfPayload_eq {p : JsonValue} {today : Int} {chosen elec : JsonValue}
    {raw : List JsonValue}
    (hc : chosenOf p today = some chosen) (he : electricityOf chosen = some elec)
    (hr : tariffsRawOf elec = some raw) : rawOfPayload p today = some raw := by
  unfold rawOfPayload elecOf
  rw [hc]
  simp [he, hr]

lemma parseTariffEntry_some_inversion {e : JsonValue} {t : ParsedTariff}
    (h : parseTariffEntry e = some t) :
    e.isObj = true ∧
    ∃ ss es st en,
      jgetD e "startDateTime" = .str ss ∧ jgetD e "endDateTime" = .str es ∧
      fromisoformatDT ss = some st ∧ fromisoformatDT es = some en ∧
      isNumeric (jgetD e "totalAmount") = true ∧
      t = ⟨st, en, toRat (jgetD e "totalAmount"),
           (groupAmounts (jgetD e "groups")).1,
           (groupAmounts (jgetD e "groups")).2.1,
           (groupAmounts (jgetD e "groups")).2.2⟩ := by
  unfold parseTariffEntry at h
  split at h
  · split at h
    · split at h
      · simp at h
      · split at h
        · split at h
          · rename_i ho u1 u2 ss es hss hes hnn v1 v2 st en hst hen hnum
            simp only [Option.some.injEq] at h
            exact ⟨ho, ss, es, st, en, hss, hes, hst, hen, hnum, h.symm⟩
          · simp at h
        · simp at h
    · simp at h
  · simp at h

lemma rawOfPayload_inversion {p : JsonValue} {today : Int} {raw : List JsonValue}
    (h : rawOfPayload p today = some raw) :
    ∃ chosen elec, chosenOf p today = some chosen ∧
      electricityOf chosen = some elec ∧ tariffsRawOf elec = some raw := by
  unfold rawOfPayload elecOf at h
  cases hc : chosenOf p today with
  | none => rw [hc] at h; simp at h
  | some chosen =>
    rw [hc] at h
    simp only [Option.some_bind] at h
    cases he : electricityOf chosen with
    | none => rw [he] at h; simp at h
    | some elec =>
      rw [he] at h
      simp only [Option.some_bind] at h
      exact ⟨chosen, elec, rfl, he, h⟩

lemma parsePayload_stages {p : JsonValue} {today : Int} {chosen elec : JsonValue}
    {raw : List JsonValue}
    (hc : chosenOf p today = some chosen) (he : electricityOf chosen = some elec)
    (hr : tariffsRawOf elec = some raw) :
    parsePayload p today =
      assembleParsed chosen elec today (raw.filterMap parseTariffEntry) := by
  unfold parsePayload
  simp only [hc, he, hr]

/-- Claim C1, counterexample: the parser enforces no `start < end`
invariant.  On a payload whose single tariff runs from 02:00 back to
01:00 parsing succeeds and the returned tariff has `start > end`. -/
theorem C1_counterexample :
    parsePayload invertedPayload day20240101 =
      .ok ⟨day20240101, none, none,
           [⟨⟨day20240101 * 1440 + 120, none⟩, ⟨day20240101 * 1440 + 60, none⟩,
             5, none, none, none⟩]⟩ ∧
    pyLt (⟨day20240101 * 1440 + 120, none⟩ : PyDatetime)
      ⟨day20240101 * 1440 + 60, none⟩ = some false :=
  ⟨by decide, by decide⟩

/-- Claim C1 (amended): for every payload on which parsing succeeds,
every returned tariff's `total` is numeric — it is the numeric
`totalAmount` of a raw entry of the chosen day's tariffs list — but
`start < end` is not checked, so a tariff with `start ≥ end` can be
returned. -/
theorem C1_total_numeric_from_payload (p : JsonValue) (today : Int)
    (d : EssentDayData) (h : parsePayload p today = .ok d) :
    ∀ t ∈ d.tariffs, ∃ raw e, rawOfPayload p today = some raw ∧ e ∈ raw ∧
      parseTariffEntry e = some t ∧ isNumeric (jgetD e "totalAmount") = true ∧
      t.total = toRat (jgetD e "totalAmount") := by
  obtain ⟨chosen, elec, raw, hc, he, hr, hne, huni, rfl⟩ := parse_ok_inversion h
  intro t ht
  have ht2 : t ∈ raw.filterMap parseTariffEntry := mem_sortTariffs.mp ht
  obtain ⟨e, he2, hpe⟩ := List.mem_filterMap.mp ht2
  obtain ⟨ho, ss, es, st, en, hss, hes, hst, hen, hnum, htt⟩ :=
    parseTariffEntry_some_inversion hpe
  exact ⟨raw, e, rawOfPayload_eq hc he hr, he2, hpe, hnum, by rw [htt]⟩

/-- Witness for C1's amended theorem at the concrete good payload. -/
theorem C1_total_numeric_from_payload_witness :
    ∃ raw e, rawOfPayload goodPayload day20240101 = some raw ∧ e ∈ raw ∧
      parseTariffEntry e = some tariffA ∧
      isNumeric (jgetD e "totalAmount") = true ∧
      tariffA.total = toRat (jgetD e "totalAmount") :=
  C1_total_numeric_from_payload goodPayload day20240101 goodDay (by decide)
    tariffA (by decide)

/-- Claim C2, counterexample: a payload whose two individually valid
tariffs mix a zone-naive and a zone-aware start makes the final
`parsed_tariffs.sort` raise `TypeError`, which escapes the parse. -/
theorem C2_counterexample : parsePayload mixedPayload day20240101 = .raised := by
  decide

/-- Claim C2 (amended): parsing an already-decoded JSON value raises an
exception exactly when the structural stages pass and the surviving
tariffs are non-empty with mixed zone-awareness of their starts (the
sort of line 161 raises `TypeError`); on every other input it
terminates with a `DayTariffSet` or `NoData`. -/
theorem C2_parse_raises_iff_mixed (p : JsonValue) (today : Int) :
    parsePayload p today = .raised ↔
      ∃ l, survivorsOf p today = some l ∧ l ≠ [] ∧ uniformAware l = false := by
  constructor
  · intro h
    unfold parsePayload at h
    split at h
    · simp at h
    next chosen hc =>
      split at h
      · simp at h
      next elec he =>
        split at h
        · simp at h
        next raw hr =>
          unfold assembleParsed at h
          split at h
          · simp at h
          next h1 =>
            split at h
            next h2 => simp at h
            next h2 =>
              refine ⟨raw.filterMap parseTariffEntry, ?_, h1, by simpa using h2⟩
              unfold survivorsOf
              rw [rawOfPayload_eq hc he hr]
              rfl
  · rintro ⟨l, hl, hne, hmix⟩
    unfold survivorsOf at hl
    cases hraw : rawOfPayload p today with
    | none => rw [hraw] at hl; simp at hl
    | some raw =>
      rw [hraw] at hl
      have hl2 : raw.filterMap parseTariffEntry = l := by simpa using hl
      obtain ⟨chosen, elec, hc, he, hr⟩ := rawOfPayload_inversion hraw
      rw [parsePayload_stages hc he hr, hl2]
      unfold assembleParsed
      rw [if_neg hne, if_neg (by simp [hmix])]

/-- Claim C3, counterexample: after a failed parse the coordinator
returns `None` and the host (`DataUpdateCoordinator`) stores it,
overwriting the previously cached good day data instead of leaving it
intact. -/
theorem C3_counterexample :
    parsePayload (.obj []) 0 = .noData ∧
    coordinatorRefresh (some goodDay) (parsePayload (.obj []) 0) = none :=
  ⟨by decide, by decide⟩

/-- Claim C3 (amended): the shared current-data reference is replaced
by whatever a completed update returns — the parsed set on success, the
absent value on a failed fetch or parse (so previous good data is NOT
preserved then) — and the previous reference survives only when the
update raises. -/
theorem C3_refresh_semantics (prev : Option EssentDayData) (p : JsonValue)
    (today : Int) :
    (parsePayload p today = .noData →
      coordinatorRefresh prev (parsePayload p today) = none) ∧
    (∀ d, parsePayload p today = .ok d →
      coordinatorRefresh prev (parsePayload p today) = some d) ∧
    (parsePayload p today = .raised →
      coordinatorRefresh prev (parsePayload p today) = prev) :=
  ⟨fun h => by rw [h]; rfl,
   fun d h => by rw [h]; rfl,
   fun h => by rw [h]; rfl⟩

/-- Witness for C3's amended theorem: a concrete failed parse replaces
a concrete cached day with the absent value. -/
theorem C3_refresh_semantics_witness :
    coordinatorRefresh (some goodDay) (parsePayload (.obj []) 0) = none :=
  (C3_refresh_semantics (some goodDay) (.obj []) 0).1 (by decide)

lemma awMatch_symm (a b : PyDatetime) : awMatch a b = awMatch b a := by
  unfold awMatch
  cases a.tz <;> cases b.tz <;> rfl

lemma scanMoment_spec (m : PyDatetime) :
    ∀ (l : List ParsedTariff),
      (∀ t ∈ l, awMatch t.start m = true ∧ awMatch t.end_ m = true) →
      (scanMoment l m ≠ .raised) ∧
      (∀ t, scanMoment l m = .found t →
        containsMoment t m = true ∧
        ∃ l₁ l₂, l = l₁ ++ t :: l₂ ∧ ∀ u ∈ l₁, containsMoment u m = false) ∧
      (scanMoment l m = .noMatch ↔ ∀ t ∈ l, containsMoment t m = false)
  | [], _ => by
    refine ⟨by simp [scanMoment], ?_, by simp [scanMoment]⟩
    intro t ht
    simp [scanMoment] at ht
  | t :: rest, h => by
    have hst : awMatch t.start m = true := (h t (by simp)).1
    have hen : awMatch t.end_ m = true := (h t (by simp)).2
    have hle : pyLe t.start m = some (decide (sortKey t.start ≤ sortKey m)) :=
      pyLe_same_awareness hst
    have hlt : pyLt m t.end_ = some (decide (sortKey m < sortKey t.end_)) :=
      pyLt_same_awareness ((awMatch_symm m t.end_).trans hen)
    have hcont : containsMoment t m =
        (decide (sortKey t.start ≤ sortKey m) && decide (sortKey m < sortKey t.end_)) := by
      unfold containsMoment
      rw [hle, hlt]
    have ih := scanMoment_spec m rest (fun u hu => h u (by simp [hu]))
    by_cases c1 : sortKey t.start ≤ sortKey m
    · by_cases c2 : sortKey m < sortKey t.end_
      · have hscan : scanMoment (t :: rest) m = .found t := by
          unfold scanMoment
          rw [hle, hlt]
          simp [c1, c2]
        refine ⟨by rw [hscan]; simp, ?_, ?_⟩
        · intro u hu
          rw [hscan] at hu
          injection hu with hu2
          subst hu2
          exact ⟨by rw [hcont]; simp [c1, c2], [], rest, rfl, by simp⟩
        · rw [hscan]
          constructor
          · intro hx
            simp at hx
          · intro hall
            have hct := hall t (by simp)
            rw [hcont] at hct
            simp [c1, c2] at hct
      · have hscan : scanMoment (t :: rest) m = scanMoment rest m := by
          unfold scanMoment
          rw [hle, hlt]
          simp [c1, c2]
          rw [scanMoment.eq_def]
        have hcontf : containsMoment t m = false := by
          rw [hcont]
          simp [c2]
        refine ⟨by rw [hscan]; exact ih.1, ?_, ?_⟩
        · intro u hu
          rw [hscan] at hu
          obtain ⟨hcu, l₁, l₂, heq, hall⟩ := ih.2.1 u hu
          refine ⟨hcu, t :: l₁, l₂, by rw [heq]; rfl, ?_⟩
          intro v hv
          rcases List.mem_cons.mp hv with rfl | hv2
          · exact hcontf
          · exact hall v hv2
        · rw [hscan, ih.2.2]
          constructor
          · intro hall v hv
            rcases List.mem_cons.mp hv with rfl | hv2
            · exact hcontf
            · exact hall v hv2
          · intro hall v hv
            exact hall v (by simp [hv])
    · have hscan : scanMoment (t :: rest) m = scanMoment rest m := by
        unfold scanMoment
        rw [hle]
        simp [c1]
        rw [scanMoment.eq_def]
      have hcontf : containsMoment t m = false := by
        rw [hcont]
        simp [c1]
      refine ⟨by rw [hscan]; exact ih.1, ?_, ?_⟩
      · intro u hu
        rw [hscan] at hu
        obtain ⟨hcu, l₁, l₂, heq, hall⟩ := ih.2.1 u hu
        refine ⟨hcu, t :: l₁, l₂, by rw [heq]; rfl, ?_⟩
        intro v hv
        rcases List.mem_cons.mp hv with rfl | hv2
        · exact hcontf
        · exact hall v hv2
      · rw [hscan, ih.2.2]
        constructor
        · intro hall v hv
          rcases List.mem_cons.mp hv with rfl | hv2
          · exact hcontf
          · exact hall v hv2
        · intro hall v hv
          exact hall v (by simp [hv])

/-- Claim C5: `_find_tariff_for_moment` scans `data.tariffs` in stored
order and returns the first tariff satisfying `start ≤ moment < end`,
and returns no match — with no fallback — when no tariff contains the
moment (stated for moments whose zone-awareness matches the tariffs',
where the Python comparisons are defined; the mixed case is claim
C10). -/
theorem C5_priceAt_scan (d : EssentDayData) (m : PyDatetime)
    (h : ∀ t ∈ d.tariffs, awMatch t.start m = true ∧ awMatch t.end_ m = true) :
    (findTariffForMoment d m ≠ .raised) ∧
    (∀ t, findTariffForMoment d m = .found t →
      containsMoment t m = true ∧
      ∃ l₁ l₂, d.tariffs = l₁ ++ t :: l₂ ∧ ∀ u ∈ l₁, containsMoment u m = false) ∧
    (findTariffForMoment d m = .noMatch ↔ ∀ t ∈ d.tariffs, containsMoment t m = false) :=
  scanMoment_spec m d.tariffs h

/-- Witness for C5 at the concrete good payload's day data and a naive
moment inside the first interval. -/
theorem C5_priceAt_scan_witness :
    findTariffForMoment goodDay ⟨day20240101 * 1440 + 30, none⟩ ≠ .raised :=
  (C5_priceAt_scan goodDay ⟨day20240101 * 1440 + 30, none⟩ (by decide)).1

/-- Claim C10 (implicit): `_find_tariff_for_moment` performs no
zone-awareness normalization — with zone-naive tariffs and a zone-aware
moment (or conversely) the containment comparison raises `TypeError`
instead of returning no match, and the now-price sensor, whose
`native_value` feeds the zone-aware local time
`dt_util.as_local(dt_util.now())` to this comparison, propagates that
exception — while `_find_next_tariff` normalizes awareness and never
raises on a uniformly-aware set. -/
theorem C10_no_normalization_raises :
    (∀ (d : EssentDayData) (t : ParsedTariff) (rest : List ParsedTariff)
       (now : PyDatetime) (z : Int),
       d.tariffs = t :: rest → t.start.tz = none → now.tz = some z →
       findTariffForMoment d now = .raised ∧
       nowPriceNativeValue (some d) now = .error ()) ∧
    (∀ (d : EssentDayData) (t : ParsedTariff) (rest : List ParsedTariff)
       (now : PyDatetime) (z : Int),
       d.tariffs = t :: rest → t.start.tz = some z → now.tz = none →
       findTariffForMoment d now = .raised) ∧
    (∀ (d : EssentDayData) (now : PyDatetime),
       uniformAware d.tariffs = true → findNextTariff d now ≠ .raised) := by
  refine ⟨?_, ?_, ?_⟩
  · intro d t rest now z hd htz hnow
    have hcomp : pyLe t.start now = none := by
      unfold pyLe
      rw [htz, hnow]
    have h1 : findTariffForMoment d now = .raised := by
      unfold findTariffForMoment
      rw [hd]
      unfold scanMoment
      rw [hcomp]
    refine ⟨h1, ?_⟩
    unfold nowPriceNativeValue
    simp only [h1]
  · intro d t rest now z hd htz hnow
    have hcomp : pyLe t.start now = none := by
      unfold pyLe
      rw [htz, hnow]
    unfold findTariffForMoment
    rw [hd]
    unfold scanMoment
    rw [hcomp]
  · intro d now h
    unfold findNextTariff
    cases hd : d.tariffs with
    | nil => simp
    | cons a rest =>
      rw [hd] at h
      simp only [h, reduceIte]
      split
      · simp
      · split
        · simp
        · split
          · simp
          · simp

/-- Witness for C10 at the concrete good day data (zone-naive tariffs)
and a zone-aware moment. -/
theorem C10_no_normalization_raises_witness :
    findTariffForMoment goodDay ⟨0, some 0⟩ = .raised ∧
    nowPriceNativeValue (some goodDay) ⟨0, some 0⟩ = .error () :=
  C10_no_normalization_raises.1 goodDay tariffA [tariffB] ⟨0, some 0⟩ 0
    (by decide) (by decide) (by decide)

/-- Whether a group entry is a dict whose `"type"` is exactly the given
string label. -/
def isGroupOfType (g : JsonValue) (ty : String) : Bool :=
  g.isObj &&
    (match jgetD g "type" with
     | .str s => s == ty
     | _ => false)

/-- Selects the market/fee/tax component corresponding to a known group
type label. -/
def groupField : String → (Option ℚ × Option ℚ × Option ℚ) → Option ℚ
  | "MARKET_PRICE", a => a.1
  | "PURCHASING_FEE", a => a.2.1
  | "TAX", a => a.2.2
  | _, _ => none

lemma isGroupOfType_inversion {g : JsonValue} {ty : String}
    (hg : isGroupOfType g ty = true) :
    g.isObj = true ∧ jgetD g "type" = .str ty := by
  unfold isGroupOfType at hg
  rw [Bool.and_eq_true] at hg
  obtain ⟨h1, h2⟩ := hg
  refine ⟨h1, ?_⟩
  cases hjt : jgetD g "type" with
  | str s =>
    rw [hjt] at h2
    have hs : s = ty := by simpa using h2
    rw [hs]
  | null => rw [hjt] at h2; simp at h2
  | bool b => rw [hjt] at h2; simp at h2
  | num q => rw [hjt] at h2; simp at h2
  | arr l => rw [hjt] at h2; simp at h2
  | obj l => rw [hjt] at h2; simp at h2

lemma buildByType_append_single (l : List JsonValue) (g : JsonValue) :
    buildByType (l ++ [g]) =
      (if g.isObj then
        match jgetD g "type" with
        | .str ty => (ty, jgetD g "amount") :: buildByType l
        | _ => buildByType l
      else buildByType l) := by
  unfold buildByType
  rw [List.foldl_append]
  rfl

lemma buildByType_lookup_none (ty : String) (l : List JsonValue)
    (hall : ∀ g ∈ l, isGroupOfType g ty = false) :
    jlookup (buildByType l) ty = none := by
  induction l using List.reverseRecOn with
  | nil => rfl
  | append_singleton l g ih =>
    rw [buildByType_append_single]
    have hrest := ih (fun g2 hg2 => hall g2 (by simp [hg2]))
    have hg : isGroupOfType g ty = false := hall g (by simp)
    by_cases ho : g.isObj = true
    · cases hty : jgetD g "type" with
      | str s =>
        simp only [ho, if_true, hty]
        have hneq : ¬(s = ty) := by
          unfold isGroupOfType at hg
          rw [ho, hty] at hg
          simpa using hg
        unfold jlookup
        rw [if_neg hneq]
        exact hrest
      | null => simp only [ho, if_true, hty]; exact hrest
      | bool b => simp only [ho, if_true, hty]; exact hrest
      | num q => simp only [ho, if_true, hty]; exact hrest
      | arr l2 => simp only [ho, if_true, hty]; exact hrest
      | obj l2 => simp only [ho, if_true, hty]; exact hrest
    · rw [if_neg ho]
      exact hrest

lemma buildByType_lookup_last (ty : String) (l₁ l₂ : List JsonValue)
    (g : JsonValue) (hg : isGroupOfType g ty = true)
    (hl2 : ∀ g2 ∈ l₂, isGroupOfType g2 ty = false) :
    jlookup (buildByType (l₁ ++ g :: l₂)) ty = some (jgetD g "amount") := by
  induction l₂ using List.reverseRecOn with
  | nil =>
    obtain ⟨ho, hty⟩ := isGroupOfType_inversion hg
    rw [buildByType_append_single]
    simp only [ho, if_true, hty]
    unfold jlookup
    rw [if_pos rfl]
  | append_singleton l₂ g2 ih =>
    have heq : l₁ ++ g :: (l₂ ++ [g2]) = (l₁ ++ g :: l₂) ++ [g2] := by simp
    rw [heq, buildByType_append_single]
    have hrest := ih (fun u hu => hl2 u (by simp [hu]))
    have hg2 : isGroupOfType g2 ty = false := hl2 g2 (by simp)
    by_cases ho : g2.isObj = true
    · cases hty : jgetD g2 "type" with
      | str s =>
        simp only [ho, if_true, hty]
        have hneq : ¬(s = ty) := by
          unfold isGroupOfType at hg2
          rw [ho, hty] at hg2
          simpa using hg2
        unfold jlookup
        rw [if_neg hneq]
        exact hrest
      | null => simp only [ho, if_true, hty]; exact hrest
      | bool b => simp only [ho, if_true, hty]; exact hrest
      | num q => simp only [ho, if_true, hty]; exact hrest
      | arr l3 => simp only [ho, if_true, hty]; exact hrest
      | obj l3 => simp only [ho, if_true, hty]; exact hrest
    · rw [if_neg ho]
      exact hrest

/-- Python `isinstance(x, str)` on a decoded JSON value. -/
def isStr : JsonValue → Bool
  | .str _ => true
  | _ => false

/-- Claim C7: structural failures — missing/non-list/empty `prices`,
non-object fallback first entry, missing `electricity`, missing or
non-list or empty `tariffs`, zero surviving tariffs — each yield
`NoData` for the whole payload, while a malformed individual tariff
entry is skipped and parsing continues identically on the remaining
entries. -/
theorem C7_failure_semantics :
    (∀ (p : JsonValue) (today : Int), pricesOf p = none →
       parsePayload p today = .noData) ∧
    (∀ (p : JsonValue) (today : Int) (prices : List JsonValue),
       pricesOf p = some prices → chooseEntry prices today = none →
       parsePayload p today = .noData) ∧
    (∀ (p : JsonValue) (today : Int) (c : JsonValue),
       chosenOf p today = some c → electricityOf c = none →
       parsePayload p today = .noData) ∧
    (∀ (p : JsonValue) (today : Int) (elec : JsonValue),
       elecOf p today = some elec → tariffsRawOf elec = none →
       parsePayload p today = .noData) ∧
    (∀ (p : JsonValue) (today : Int) (raw : List JsonValue),
       rawOfPayload p today = some raw → raw.filterMap parseTariffEntry = [] →
       parsePayload p today = .noData) ∧
    (∀ (p p2 : JsonValue) (today : Int) (c c2 : JsonValue)
       (l₁ l₂ : List JsonValue) (e : JsonValue),
       chosenOf p today = some c → chosenOf p2 today = some c2 →
       dayOf c today = dayOf c2 today →
       (∃ el el2, electricityOf c = some el ∧ electricityOf c2 = some el2 ∧
         vatOf el = vatOf el2 ∧ unitOf el = unitOf el2 ∧
         tariffsRawOf el = some (l₁ ++ e :: l₂) ∧
         tariffsRawOf el2 = some (l₁ ++ l₂)) →
       parseTariffEntry e = none →
       parsePayload p today = parsePayload p2 today) := by
  refine ⟨?_, ?_, ?_, ?_, ?_, ?_⟩
  · intro p today h
    have hc : chosenOf p today = none := by
      unfold chosenOf
      rw [h]
      rfl
    unfold parsePayload
    rw [hc]
  · intro p today prices h1 h2
    have hc : chosenOf p today = none := by
      unfold chosenOf
      rw [h1]
      simp only [Option.some_bind]
      exact h2
    unfold parsePayload
    rw [hc]
  · intro p today c hc he
    unfold parsePayload
    simp only [hc, he]
  · intro p today elec h1 h2
    unfold elecOf at h1
    cases hc : chosenOf p today with
    | none => rw [hc] at h1; simp at h1
    | some c =>
      rw [hc] at h1
      simp only [Option.some_bind] at h1
      unfold parsePayload
      simp only [hc, h1, h2]
  · intro p today raw h1 h2
    obtain ⟨c, elec, hc, he, hr⟩ := rawOfPayload_inversion h1
    rw [parsePayload_stages hc he hr, h2]
    rfl
  · intro p p2 today c c2 l₁ l₂ e hc hc2 hday hex hskip
    obtain ⟨el, el2, hel, hel2, hv, hu, hr1, hr2⟩ := hex
    rw [parsePayload_stages hc hel hr1, parsePayload_stages hc2 hel2 hr2]
    have hfm : (l₁ ++ e :: l₂).filterMap parseTariffEntry =
        (l₁ ++ l₂).filterMap parseTariffEntry := by
      simp [List.filterMap_append, List.filterMap_cons, hskip]
    rw [hfm]
    unfold assembleParsed
    rw [hday, hv, hu]

/-- Witness for C7 at the concrete good payload: dropping its malformed
third tariff entry does not change the parse result. -/
theorem C7_failure_semantics_witness :
    parsePayload goodPayload day20240101 = parsePayload prunedPayload day20240101 :=
  C7_failure_semantics.2.2.2.2.2 goodPayload prunedPayload day20240101
    goodPrices0 prunedPrices0 [entryB, entryA] [] entryBad
    (by rfl) (by rfl) (by rfl)
    ⟨goodElec, prunedElec, by rfl, by rfl, by rfl, by rfl, by rfl, by rfl⟩
    (by rfl)

/-- Claim C8: day selection picks the first prices entry whose `"date"`
equals the today fallback as an ISO date, else falls back to the first
entry provided it is an object (else the whole parse yields `NoData`);
the resulting set's day is the chosen entry's parsed `"date"`, with the
today fallback substituted — without failing the parse — when that
field is absent, not a string, or unparsable. -/
theorem C8_day_selection :
    (∀ (l₁ l₂ : List JsonValue) (c : JsonValue) (today : Int),
       matchesToday c today = true → (∀ e ∈ l₁, matchesToday e today = false) →
       chooseEntry (l₁ ++ c :: l₂) today = some c) ∧
    (∀ (first : JsonValue) (rest : List JsonValue) (today : Int),
       (∀ e ∈ first :: rest, matchesToday e today = false) →
       chooseEntry (first :: rest) today =
         (if first.isObj then some first else none)) ∧
    (∀ (p : JsonValue) (today : Int), chosenOf p today = none →
       parsePayload p today = .noData) ∧
    (∀ (p : JsonValue) (today : Int) (d : EssentDayData),
       parsePayload p today = .ok d →
       ∃ c, chosenOf p today = some c ∧ d.day = dayOf c today) ∧
    (∀ (c : JsonValue) (today : Int) (s : String) (n : Int),
       jgetD c "date" = .str s → fromisoformatDate s = some n →
       dayOf c today = n) ∧
    (∀ (c : JsonValue) (today : Int) (s : String),
       jgetD c "date" = .str s → fromisoformatDate s = none →
       dayOf c today = today) ∧
    (∀ (c : JsonValue) (today : Int),
       isStr (jgetD c "date") = false → dayOf c today = today) := by
  refine ⟨?_, ?_, ?_, ?_, ?_, ?_, ?_⟩
  · intro l₁ l₂ c today hc hfail
    unfold chooseEntry
    rw [find?_append_first l₁ l₂ hc hfail]
  · intro first rest today hall
    unfold chooseEntry
    rw [List.find?_eq_none.mpr (fun e he => by simp [hall e he])]
  · intro p today h
    unfold parsePayload
    rw [h]
  · intro p today d h
    obtain ⟨c, elec, raw, hc, he, hr, hne, huni, hd⟩ := parse_ok_inversion h
    exact ⟨c, hc, by rw [hd]⟩
  · intro c today s n h1 h2
    unfold dayOf
    rw [h1]
    simp [h2]
  · intro c today s h1 h2
    unfold dayOf
    rw [h1]
    simp [h2]
  · intro c today h
    unfold dayOf
    cases hjt : jgetD c "date" with
    | str s => rw [hjt] at h; simp [isStr] at h
    | null => rfl
    | bool b => rfl
    | num q => rfl
    | arr l => rfl
    | obj l => rfl

/-- Witness for C8: the good payload's single entry matches the ISO
date of its fallback day and is chosen. -/
theorem C8_day_selection_witness :
    chooseEntry ([] ++ goodPrices0 :: []) day20240101 = some goodPrices0 :=
  C8_day_selection.1 [] [] goodPrices0 day20240101 (by rfl) (by simp)

/-- Claim C9: within a tariff entry's `groups` sequence, group objects
with a string `type` map to their `amount` with the last occurrence of
a duplicated type winning, and for the labels `MARKET_PRICE`,
`PURCHASING_FEE` and `TAX` any non-numeric or absent amount yields null
for the corresponding market/fee/tax field of the parsed tariff, never
an exception. -/
theorem C9_groups_last_wins :
    (∀ (l₁ l₂ : List JsonValue) (g : JsonValue) (ty : String),
       (ty = "MARKET_PRICE" ∨ ty = "PURCHASING_FEE" ∨ ty = "TAX") →
       isGroupOfType g ty = true →
       (∀ g2 ∈ l₂, isGroupOfType g2 ty = false) →
       groupField ty (groupAmounts (.arr (l₁ ++ g :: l₂))) =
         (if isNumeric (jgetD g "amount") then some (toRat (jgetD g "amount"))
          else none)) ∧
    (∀ (l : List JsonValue) (ty : String),
       (ty = "MARKET_PRICE" ∨ ty = "PURCHASING_FEE" ∨ ty = "TAX") →
       (∀ g ∈ l, isGroupOfType g ty = false) →
       groupField ty (groupAmounts (.arr l)) = none) ∧
    (∀ (e : JsonValue) (t : ParsedTariff), parseTariffEntry e = some t →
       t.market = (groupAmounts (jgetD e "groups")).1 ∧
       t.fee = (groupAmounts (jgetD e "groups")).2.1 ∧
       t.tax = (groupAmounts (jgetD e "groups")).2.2) := by
  refine ⟨?_, ?_, ?_⟩
  · intro l₁ l₂ g ty hty3 hg hl2
    have hlast := buildByType_lookup_last ty l₁ l₂ g hg hl2
    rcases hty3 with rfl | rfl | rfl
    · show pickAmount (buildByType (l₁ ++ g :: l₂)) "MARKET_PRICE" = _
      unfold pickAmount
      rw [hlast]
    · show pickAmount (buildByType (l₁ ++ g :: l₂)) "PURCHASING_FEE" = _
      unfold pickAmount
      rw [hlast]
    · show pickAmount (buildByType (l₁ ++ g :: l₂)) "TAX" = _
      unfold pickAmount
      rw [hlast]
  · intro l ty hty3 hall
    have hnone := buildByType_lookup_none ty l hall
    rcases hty3 with rfl | rfl | rfl
    · show pickAmount (buildByType l) "MARKET_PRICE" = none
      unfold pickAmount
      rw [hnone]
    · show pickAmount (buildByType l) "PURCHASING_FEE" = none
      unfold pickAmount
      rw [hnone]
    · show pickAmount (buildByType l) "TAX" = none
      unfold pickAmount
      rw [hnone]
  · intro e t h
    obtain ⟨ho, ss, es, st, en, hss, hes, hst, hen, hnum, htt⟩ :=
      parseTariffEntry_some_inversion h
    rw [htt]
    exact ⟨rfl, rfl, rfl⟩

/-- Witness for C9 at the concrete duplicated `MARKET_PRICE` groups of
the good payload's entry: the second amount wins. -/
theorem C9_groups_last_wins_witness :
    groupField "MARKET_PRICE" (groupAmounts (.arr ([groupM7] ++ groupM9 :: [groupTaxBad]))) =
      (if isNumeric (jgetD groupM9 "amount") then some (toRat (jgetD groupM9 "amount"))
       else none) :=
  C9_groups_last_wins.1 [groupM7] [groupTaxBad] groupM9 "MARKET_PRICE"
    (Or.inl rfl) (by rfl) (by decide)

/-- Modelled from the spec's words (§4.1 step 7), for comparison with
the parser: an entry is syntactically complete when it is an object
with string start/end datetime fields that parse and a numeric (hence
non-null) `totalAmount`. -/
def syntacticallyComplete (e : JsonValue) : Bool :=
  e.isObj &&
    (match jgetD e "startDateTime", jgetD e "endDateTime" with
     | .str ss, .str es => (fromisoformatDT ss).isSome && (fromisoformatDT es).isSome
     | _, _ => false) &&
    isNumeric (jgetD e "totalAmount")

lemma parseTariffEntry_isSome (e : JsonValue) :
    (parseTariffEntry e).isSome = syntacticallyComplete e := by
  unfold parseTariffEntry syntacticallyComplete
  cases ho : e.isObj
  · simp
  · cases hss : jgetD e "startDateTime" <;> cases hes : jgetD e "endDateTime" <;> simp
    rename_i ss es
    cases htot : jgetD e "totalAmount" <;>
      cases hst : fromisoformatDT ss <;> cases hen : fromisoformatDT es <;>
        simp [isNull, isNumeric]

/-- Claim C6: for every payload on which parsing succeeds, the returned
tariff sequence is sorted ascending by start and is (as a multiset)
exactly the per-entry parses of the chosen day's raw tariffs list, and
an entry parses exactly when it is syntactically complete per §4.1
step 7 — no more and no fewer entries survive. -/
theorem C6_sorted_and_complete (p : JsonValue) (today : Int) (d : EssentDayData)
    (h : parsePayload p today = .ok d) :
    (∃ raw, rawOfPayload p today = some raw ∧
       List.Perm d.tariffs (raw.filterMap parseTariffEntry)) ∧
    List.Pairwise tariffLe d.tariffs ∧
    ∀ e : JsonValue, (parseTariffEntry e).isSome = syntacticallyComplete e := by
  obtain ⟨chosen, elec, raw, hc, he, hr, hne, huni, hd⟩ := parse_ok_inversion h
  subst hd
  exact ⟨⟨raw, rawOfPayload_eq hc he hr, sortTariffs_perm _⟩,
         sortTariffs_sorted _, parseTariffEntry_isSome⟩

/-- Witness for C6 at the concrete good payload. -/
theorem C6_sorted_and_complete_witness :
    (∃ raw, rawOfPayload goodPayload day20240101 = some raw ∧
       List.Perm goodDay.tariffs (raw.filterMap parseTariffEntry)) ∧
    List.Pairwise tariffLe goodDay.tariffs ∧
    ∀ e : JsonValue, (parseTariffEntry e).isSome = syntacticallyComplete e :=
  C6_sorted_and_complete goodPayload day20240101 goodDay (by decide)

lemma tariffLe_refl : ∀ a : ParsedTariff, tariffLe a a :=
  fun a => Int.le_refl (sortKey a.start)

lemma sortTariffs_ne_nil {l : List ParsedTariff} (h : l ≠ []) :
    sortTariffs l ≠ [] := by
  intro hnil
  have hp := sortTariffs_perm l
  rw [hnil] at hp
  exact h hp.symm.eq_nil

/-- Claim C4: for every non-empty `EssentDayData` (with the uniform
zone-awareness every parser-produced set has — a mixed set makes the
parse itself raise) and every moment, `_find_next_tariff` — after
normalizing the moment's zone-awareness to match the first sorted
tariff — returns the earliest tariff whose start is strictly after the
moment if one exists, otherwise the earliest tariff whose calendar date
is strictly later than the moment's date if one exists, otherwise the
chronologically last tariff; it never returns no match for a non-empty
set. -/
theorem C4_priceAtOrAfter (d : EssentDayData) (now : PyDatetime)
    (hne : d.tariffs ≠ []) (huni : uniformAware d.tariffs = true) :
    ∃ t, findNextTariff d now = .found t ∧ t ∈ d.tariffs ∧
      ((∃ u ∈ d.tariffs, sortKey (normalizedMoment d now) < sortKey u.start) →
        sortKey (normalizedMoment d now) < sortKey t.start ∧
        ∀ u ∈ d.tariffs, sortKey (normalizedMoment d now) < sortKey u.start →
          sortKey t.start ≤ sortKey u.start) ∧
      ((∀ u ∈ d.tariffs, ¬ sortKey (normalizedMoment d now) < sortKey u.start) →
        (∃ u ∈ d.tariffs, dateOf (normalizedMoment d now) < dateOf u.start) →
        dateOf (normalizedMoment d now) < dateOf t.start ∧
        ∀ u ∈ d.tariffs, dateOf (normalizedMoment d now) < dateOf u.start →
          sortKey t.start ≤ sortKey u.start) ∧
      ((∀ u ∈ d.tariffs, ¬ sortKey (normalizedMoment d now) < sortKey u.start) →
        (∀ u ∈ d.tariffs, ¬ dateOf (normalizedMoment d now) < dateOf u.start) →
        ∀ u ∈ d.tariffs, sortKey u.start ≤ sortKey t.start) := by
  obtain ⟨a, rest, hd⟩ : ∃ a rest, d.tariffs = a :: rest := by
    cases hl : d.tariffs with
    | nil => exact absurd hl hne
    | cons a rest => exact ⟨a, rest, rfl⟩
  have hsne : sortTariffs d.tariffs ≠ [] := sortTariffs_ne_nil hne
  obtain ⟨first, restS, hsort⟩ : ∃ f r, sortTariffs d.tariffs = f :: r := by
    cases hs : sortTariffs d.tariffs with
    | nil => exact absurd hs hsne
    | cons f r => exact ⟨f, r, rfl⟩
  have hnm : normalizedMoment d now = normalizeNow first.start.tz now := by
    unfold normalizedMoment
    rw [hsort]
  rw [hnm]
  have huni2 : uniformAware (a :: rest) = true := by rw [← hd]; exact huni
  have hsort2 : sortTariffs (a :: rest) = first :: restS := by rw [← hd]; exact hsort
  have hstep : findNextTariff d now =
      (match (first :: restS).find?
          (fun t => decide (sortKey (normalizeNow first.start.tz now) < sortKey t.start)) with
       | some t => .found t
       | none =>
         match (first :: restS).find?
             (fun t => decide (dateOf (normalizeNow first.start.tz now) < dateOf t.start)) with
         | some t => .found t
         | none => .found ((first :: restS).getLast (List.cons_ne_nil first restS))) := by
    unfold findNextTariff
    rw [hd]
    simp only [huni2, reduceIte, hsort2]
  have hpair : List.Pairwise tariffLe (first :: restS) := by
    rw [← hsort2]
    exact sortTariffs_sorted _
  have hmem_iff : ∀ u : ParsedTariff, u ∈ first :: restS ↔ u ∈ d.tariffs := by
    intro u
    rw [← hsort]
    exact mem_sortTariffs
  cases hf1 : (first :: restS).find?
      (fun t => decide (sortKey (normalizeNow first.start.tz now) < sortKey t.start)) with
  | some t =>
    have hres : findNextTariff d now = .found t := by rw [hstep, hf1]
    have hpt : sortKey (normalizeNow first.start.tz now) < sortKey t.start := by
      have := List.find?_some hf1
      simpa using this
    have htmem : t ∈ d.tariffs := (hmem_iff t).mp (List.mem_of_find?_eq_some hf1)
    refine ⟨t, hres, htmem, ?_, ?_, ?_⟩
    · intro _
      refine ⟨hpt, ?_⟩
      intro u hu hup
      exact sorted_find?_min tariffLe_refl hpair hf1 u ((hmem_iff u).mpr hu)
        (decide_eq_true hup)
    · intro hno _
      exact absurd hpt (hno t htmem)
    · intro hno _
      exact absurd hpt (hno t htmem)
  | none =>
    have hnone1 : ∀ u ∈ d.tariffs,
        ¬ sortKey (normalizeNow first.start.tz now) < sortKey u.start := by
      intro u hu
      have := List.find?_eq_none.mp hf1 u ((hmem_iff u).mpr hu)
      simpa using this
    cases hf2 : (first :: restS).find?
        (fun t => decide (dateOf (normalizeNow first.start.tz now) < dateOf t.start)) with
    | some t =>
      have hres : findNextTariff d now = .found t := by rw [hstep, hf1, hf2]
      have hpt : dateOf (normalizeNow first.start.tz now) < dateOf t.start := by
        have := List.find?_some hf2
        simpa using this
      have htmem : t ∈ d.tariffs := (hmem_iff t).mp (List.mem_of_find?_eq_some hf2)
      refine ⟨t, hres, htmem, ?_, ?_, ?_⟩
      · rintro ⟨u, hu, hup⟩
        exact absurd hup (hnone1 u hu)
      · intro _ _
        refine ⟨hpt, ?_⟩
        intro u hu hup
        exact sorted_find?_min tariffLe_refl hpair hf2 u ((hmem_iff u).mpr hu)
          (decide_eq_true hup)
      · intro _ hno
        exact absurd hpt (hno t htmem)
    | none =>
      have hnone2 : ∀ u ∈ d.tariffs,
          ¬ dateOf (normalizeNow first.start.tz now) < dateOf u.start := by
        intro u hu
        have := List.find?_eq_none.mp hf2 u ((hmem_iff u).mpr hu)
        simpa using this
      have hres : findNextTariff d now =
          .found ((first :: restS).getLast (List.cons_ne_nil first restS)) := by
        rw [hstep, hf1, hf2]
      have htmem : (first :: restS).getLast (List.cons_ne_nil first restS) ∈ d.tariffs :=
        (hmem_iff _).mp (List.getLast_mem _)
      refine ⟨_, hres, htmem, ?_, ?_, ?_⟩
      · rintro ⟨u, hu, hup⟩
        exact absurd hup (hnone1 u hu)
      · rintro _ ⟨u, hu, hup⟩
        exact absurd hup (hnone2 u hu)
      · intro _ _ u hu
        exact pairwise_rel_getLast (List.cons_ne_nil first restS) hpair
          tariffLe_refl u ((hmem_iff u).mpr hu)

/-- Witness for C4 at the concrete good day data and a naive moment
at 00:30 of its day. -/
theorem C4_priceAtOrAfter_witness :
    ∃ t, findNextTariff goodDay ⟨day20240101 * 1440 + 30, none⟩ = .found t ∧
      t ∈ goodDay.tariffs ∧
      ((∃ u ∈ goodDay.tariffs,
          sortKey (normalizedMoment goodDay ⟨day20240101 * 1440 + 30, none⟩) <
            sortKey u.start) →
        sortKey (normalizedMoment goodDay ⟨day20240101 * 1440 + 30, none⟩) <
          sortKey t.start ∧
        ∀ u ∈ goodDay.tariffs,
          sortKey (normalizedMoment goodDay ⟨day20240101 * 1440 + 30, none⟩) <
            sortKey u.start →
          sortKey t.start ≤ sortKey u.start) ∧
      ((∀ u ∈ goodDay.tariffs,
          ¬ sortKey (normalizedMoment goodDay ⟨day20240101 * 1440 + 30, none⟩) <
            sortKey u.start) →
        (∃ u ∈ goodDay.tariffs,
          dateOf (normalizedMoment goodDay ⟨day20240101 * 1440 + 30, none⟩) <
            dateOf u.start) →
        dateOf (normalizedMoment goodDay ⟨day20240101 * 1440 + 30, none⟩) <
          dateOf t.start ∧
        ∀ u ∈ goodDay.tariffs,
          dateOf (normalizedMoment goodDay ⟨day20240101 * 1440 + 30, none⟩) <
            dateOf u.start →
          sortKey t.start ≤ sortKey u.start) ∧
      ((∀ u ∈ goodDay.tariffs,
          ¬ sortKey (normalizedMoment goodDay ⟨day20240101 * 1440 + 30, none⟩) <
            sortKey u.start) →
        (∀ u ∈ goodDay.tariffs,
          ¬ dateOf (normalizedMoment goodDay ⟨day20240101 * 1440 + 30, none⟩) <
            dateOf u.start) →
        ∀ u ∈ goodDay.tariffs, sortKey u.start ≤ sortKey t.start) :=
  C4_priceAtOrAfter goodDay ⟨day20240101 * 1440 + 30, none⟩ (by decide) (by decide)
